import Mathlib

/-!
Shallow embedding of the core filtering / aggregation logic of the
SF film-locations map browser (two source variants: `script.js`, which
aggregates records into per-coordinate locations and uses pixel-denominated
query-circle radii, and the unnamed variant, which treats every record
independently and uses km-denominated radii converted through `kmToPixels`).

Strings are embedded as `List Char`.  JavaScript numbers observable by this
code are embedded as `JSNum` (NaN or a rational); the ECMAScript
string-to-number coercion `+s` is embedded by `jsToNum` on the decimal
fragment actually exercised by the data (optional sign, decimal digits,
optional fraction; other numeric spellings such as hex or exponent forms
coerce to `nan` here, which the program distinguishes from a finite number
exactly as JavaScript does through `Number.isFinite`, truthiness and
NaN-poisoned comparisons).
-/

namespace SFFilm

/-- Strings of the JavaScript source, embedded as lists of characters. -/
abbrev Str := List Char

/-- Convert a Lean string literal to the embedded string type. -/
def str (s : String) : Str := s.data

/-- The whitespace characters relevant to `String.prototype.trim` on this data. -/
def isWs (c : Char) : Bool := c = ' ' || c = '\t' || c = '\n' || c = '\r'

/-- JavaScript `s.trim()`: strip leading and trailing whitespace. -/
def trimStr (s : Str) : Str :=
  ((s.dropWhile isWs).reverse.dropWhile isWs).reverse

/-- A JavaScript number as observed by this program: NaN or a finite value.
(`Number.isFinite` treats infinities like NaN, and no infinity arises from
the decimal fragment modelled here, so a single non-finite constructor
suffices observationally.) -/
inductive JSNum where
  | nan : JSNum
  | num : ℚ → JSNum
deriving DecidableEq, Repr

/-- ASCII decimal digit test. -/
def isDigit (c : Char) : Bool := decide ('0' ≤ c) && decide (c ≤ '9')

/-- Value of a string of decimal digits. -/
def digitsToNat (l : Str) : ℕ :=
  l.foldl (fun n c => 10 * n + (c.toNat - 48)) 0

/-- Unsigned decimal literal: `123`, `123.`, `.5`, `12.5`.  Anything else
(including the lone `.`) fails to parse. -/
def parseUnsigned (t : Str) : Option ℚ :=
  let intPart := t.takeWhile isDigit
  let rest := t.dropWhile isDigit
  match rest with
  | [] => if intPart = [] then none else some ((digitsToNat intPart : ℚ))
  | '.' :: frac =>
      if frac.all isDigit && (decide (intPart ≠ []) || decide (frac ≠ [])) then
        some ((digitsToNat intPart : ℚ) + (digitsToNat frac : ℚ) / (10 : ℚ) ^ frac.length)
      else none
  | _ => none

/-- Optionally signed decimal literal. -/
def parseSigned (t : Str) : Option ℚ :=
  match t with
  | '-' :: rest => (parseUnsigned rest).map (fun q => -q)
  | '+' :: rest => parseUnsigned rest
  | _ => parseUnsigned t

/-- ECMAScript `+s` (ToNumber) on the decimal fragment: whitespace is
trimmed, the empty string is `0`, a signed decimal literal is its value,
everything else is NaN. -/
def jsToNum (s : Str) : JSNum :=
  let t := trimStr s
  if t = [] then JSNum.num 0
  else
    match parseSigned t with
    | some q => JSNum.num q
    | none => JSNum.nan

/-- JavaScript `Number.isFinite`. -/
def numberIsFinite : JSNum → Bool
  | JSNum.nan => false
  | JSNum.num _ => true

/-- Truthiness of `!n` for a JavaScript number: `!n` is true iff `n` is NaN or 0. -/
def jsFalsy : JSNum → Bool
  | JSNum.nan => true
  | JSNum.num q => decide (q = 0)

/-- JavaScript `n >= b` for a possibly-NaN left operand (NaN comparisons are false). -/
def jsGe : JSNum → ℚ → Bool
  | JSNum.nan, _ => false
  | JSNum.num q, b => decide (b ≤ q)

/-- JavaScript `n <= b` for a possibly-NaN left operand (NaN comparisons are false). -/
def jsLe : JSNum → ℚ → Bool
  | JSNum.nan, _ => false
  | JSNum.num q, b => decide (q ≤ b)

/-- One CSV row of the film-locations dataset, restricted to the fields the
core logic reads.  All fields are raw strings at this boundary. -/
structure Rec where
  title : Str
  releaseYear : Str
  director : Str
  neighborhood : Str
  longitude : Str
  latitude : Str
deriving DecidableEq, Repr

/-! ## Query regions (`circleA` / `circleB`) -/

/-- Mutable state of one query circle: screen-space center plus a radius
(denominated in pixels in `script.js`, in kilometers in the unnamed variant). -/
structure Circle where
  x : ℚ
  y : ℚ
  radius : ℚ
deriving DecidableEq, Repr

/-- Source `isInCircle` of `script.js`: squared Euclidean distance against squared
pixel radius, inclusive boundary. -/
def isInCircle (px py : ℚ) (c : Circle) : Bool :=
  decide ((px - c.x) * (px - c.x) + (py - c.y) * (py - c.y) ≤ c.radius * c.radius)

/-- Source `isInIntersection` of `script.js`, with the two module-level circles
passed explicitly. -/
def isInIntersection (cA cB : Circle) (px py : ℚ) : Bool :=
  isInCircle px py cA && isInCircle px py cB

/-- Source `kmToPixels` of the unnamed variant returns `km * pixelsPerKm`, where
`pixelsPerKm` is a constant measured from the (external) d3 Mercator
projection; that measured scale factor is taken as a parameter here. -/
def kmToPixels (km pixelsPerKm : ℚ) : ℚ := km * pixelsPerKm

/-- Source `isInCircle` of the unnamed variant: the km radius is first converted to
pixels through `kmToPixels`. -/
def isInCircleKm (pixelsPerKm px py : ℚ) (c : Circle) : Bool :=
  let radiusPixels := kmToPixels c.radius pixelsPerKm
  decide ((px - c.x) * (px - c.x) + (py - c.y) * (py - c.y) ≤ radiusPixels * radiusPixels)

/-- Source `isInIntersection` of the unnamed variant. -/
def isInIntersectionKm (pixelsPerKm : ℚ) (cA cB : Circle) (px py : ℚ) : Bool :=
  isInCircleKm pixelsPerKm px py cA && isInCircleKm pixelsPerKm px py cB

/-! ## Filter criteria and the per-record predicate of `updateFilters` -/

/-- The `'all'` dropdown sentinel. -/
def strAll : Str := str "all"

/-- Snapshot of the UI filter state read at the top of `updateFilters`
(slider values coerce to plain numbers, dropdown values are strings). -/
structure Criteria where
  yearMin : ℚ
  yearMax : ℚ
  director : Str
  neighborhood : Str
deriving DecidableEq, Repr

/-- Source condition `(!year || (year >= yearMin && year <= yearMax))` with
`year = +movie['Release Year']`. -/
def inYearRange (yearStr : Str) (yearMin yearMax : ℚ) : Bool :=
  let year := jsToNum yearStr
  jsFalsy year || (jsGe year yearMin && jsLe year yearMax)

/-- Source condition `selectedDirector === 'all' || movie.Director === selectedDirector`. -/
def directorMatch (sel : Str) (m : Rec) : Bool :=
  decide (sel = strAll) || decide (m.director = sel)

/-- Source condition `selectedNeighborhood === 'all' || movie['Analysis Neighborhood'] === selectedNeighborhood`. -/
def neighborhoodMatch (sel : Str) (m : Rec) : Bool :=
  decide (sel = strAll) || decide (m.neighborhood = sel)

/-- The per-record predicate of the `d.movies.filter` callback in
`updateFilters` of `script.js`: year range AND director AND neighborhood. -/
def movieMatches (crit : Criteria) (m : Rec) : Bool :=
  inYearRange m.releaseYear crit.yearMin crit.yearMax
    && directorMatch crit.director m
    && neighborhoodMatch crit.neighborhood m

/-- One rendered location point as `updateFilters` sees it: the cached
screen coordinates read back from the `cx`/`cy` attributes, and the movie
records grouped at that point. -/
structure LocPoint where
  px : ℚ
  py : ℚ
  movies : List Rec
deriving DecidableEq, Repr

/-- Source `d.movies.filter(...)` of `updateFilters`. -/
def matchingMovies (crit : Criteria) (loc : LocPoint) : List Rec :=
  loc.movies.filter (movieMatches crit)

/-- Source `visible = inIntersection && matchingMovies.length > 0` of `script.js`. -/
def locationVisible (cA cB : Circle) (crit : Criteria) (loc : LocPoint) : Bool :=
  isInIntersection cA cB loc.px loc.py
    && decide (0 < (matchingMovies crit loc).length)

/-- The running `visibleCount` accumulated by the `.each` loop of
`updateFilters` in `script.js`: visible locations contribute their matching
record count. -/
def updateFiltersCount (cA cB : Circle) (crit : Criteria) (locs : List LocPoint) : ℕ :=
  locs.foldl
    (fun acc loc =>
      if locationVisible cA cB crit loc then acc + (matchingMovies crit loc).length
      else acc)
    0

/-- Source `visible = inIntersection && inYearRange && directorMatch && neighborhoodMatch`
of the unnamed per-record variant, for one record rendered at `(px, py)`. -/
def recordVisible (pixelsPerKm : ℚ) (cA cB : Circle) (crit : Criteria)
    (px py : ℚ) (d : Rec) : Bool :=
  isInIntersectionKm pixelsPerKm cA cB px py
    && inYearRange d.releaseYear crit.yearMin crit.yearMax
    && directorMatch crit.director d
    && neighborhoodMatch crit.neighborhood d

/-! ## Load-time coordinate filter (`d3.csv` callback) -/

/-- Source `data.filter(d => Number.isFinite(+d.Longitude) && Number.isFinite(+d.Latitude))`. -/
def loadFilter (data : List Rec) : List Rec :=
  data.filter (fun d =>
    numberIsFinite (jsToNum d.longitude) && numberIsFinite (jsToNum d.latitude))

/-! ## Location aggregation (`locationMap` of `renderDataPoints`) -/

/-- The Map key built as `` `${d.Longitude},${d.Latitude}` ``. -/
def recKey (d : Rec) : Str := d.longitude ++ [','] ++ d.latitude

/-- One entry of the `locationMap`: the Map key, the coordinates of the
first record seen there, and the movie list in first-seen order. -/
structure LocEntry where
  key : Str
  longitude : Str
  latitude : Str
  movies : List Rec
deriving DecidableEq, Repr

/-- One step of the `allData.forEach` loop building `locationMap`: if the
key is present, push the record onto that entry's movie list, else append a
fresh entry (JavaScript Maps preserve insertion order, embedded as an
association list). -/
def insertRecord : List LocEntry → Rec → List LocEntry
  | [], d => [⟨recKey d, d.longitude, d.latitude, [d]⟩]
  | e :: es, d =>
      if e.key = recKey d then { e with movies := e.movies ++ [d] } :: es
      else e :: insertRecord es d

/-- The fully built `locationMap` (its values array, in insertion order). -/
def locationMapOf (rs : List Rec) : List LocEntry :=
  rs.foldl insertRecord []

/-- How one `insertRecord` step transforms the entry found under key `k`. -/
def pushEntry (d : Rec) (k : Str) : Option LocEntry → LocEntry
  | some e => { e with movies := e.movies ++ [d] }
  | none => ⟨k, d.longitude, d.latitude, [d]⟩

/-! ## d3 square-root radius scale of `renderDataPoints` -/

/-- d3-scale `normalize(a, b)`: the degenerate case `b - a = 0` maps every
input to the constant `0.5` (d3 guards the division; floats add a NaN case
that cannot arise from the count inputs used here). -/
noncomputable def d3Normalize (a b x : ℝ) : ℝ :=
  if b - a = 0 then 1 / 2 else (x - a) / (b - a)

/-- d3-interpolate `interpolateNumber(a, b)`. -/
def d3InterpolateNumber (a b t : ℝ) : ℝ := a * (1 - t) + b * t

/-- Model of `d3.scaleSqrt().domain([d0, d1]).range([r0, r1])` applied to `x`:
domain endpoints and the input pass through the square-root transform, the
normalized position is linearly interpolated over the range (d3 `bimap`,
including its descending-domain branch; non-negative inputs only, as here,
where Math.sqrt agrees with Real.sqrt). -/
noncomputable def d3ScaleSqrt (d0 d1 r0 r1 x : ℝ) : ℝ :=
  let td0 := Real.sqrt d0
  let td1 := Real.sqrt d1
  let tx := Real.sqrt x
  if td1 < td0 then d3InterpolateNumber r1 r0 (d3Normalize td1 td0 tx)
  else d3InterpolateNumber r0 r1 (d3Normalize td0 td1 tx)

/-- Model of `d3.max(locationData, d => d.movies.length)` over non-empty data (on
empty data d3 yields undefined and no point is rendered, so the value is
never consumed; `0` stands in for that unused case). -/
def maxMoviesD3 (locs : List LocEntry) : ℕ :=
  locs.foldl (fun m e => Nat.max m e.movies.length) 0

/-- The display radius `radiusScale(d.movies.length)` assigned to a location
point by `renderDataPoints`: sqrt scale with domain `[1, maxMovies]` and
range `[3, 10]`. -/
noncomputable def renderRadius (locs : List LocEntry) (e : LocEntry) : ℝ :=
  d3ScaleSqrt 1 (maxMoviesD3 locs) 3 10 (e.movies.length)

/-! ## Dropdown option population (`getUniqueValues`) -/

/-- JavaScript `Set.add` on an insertion-ordered set embedded as a list. -/
def addUnique (acc : List Str) (v : Str) : List Str :=
  if v ∈ acc then acc else acc ++ [v]

/-- Lexicographic string order by code point: the default
`Array.prototype.sort` comparator on strings. -/
def strLe : Str → Str → Bool
  | [], _ => true
  | _ :: _, [] => false
  | a :: as, b :: bs => if a = b then strLe as bs else decide (a < b)

/-- Source `getUniqueValues(data, field)`: collect `value.trim()` for every truthy
field value with non-empty trim, dedupe via a Set, sort. -/
def getUniqueValues (data : List Rec) (f : Rec → Str) : List Str :=
  let values := data.foldl
    (fun acc d =>
      let value := f d
      if value ≠ [] ∧ trimStr value ≠ [] then addUnique acc (trimStr value) else acc)
    []
  values.mergeSort strLe

/-! ## Year slider handlers (`setupControls`) -/

/-- The two year sliders' values. -/
structure YearSliders where
  yearMin : ℚ
  yearMax : ℚ
deriving DecidableEq, Repr

/-- The `yearMin` `input` handler: the browser has already set the moved
slider to `v`; if `v` exceeds the other slider's value, the handler drags
`yearMax` up to `v`. -/
def onYearMinInput (v : ℚ) (s : YearSliders) : YearSliders :=
  if v > s.yearMax then { yearMin := v, yearMax := v }
  else { yearMin := v, yearMax := s.yearMax }

/-- The `yearMax` `input` handler, symmetric to `onYearMinInput`. -/
def onYearMaxInput (v : ℚ) (s : YearSliders) : YearSliders :=
  if v < s.yearMin then { yearMin := v, yearMax := v }
  else { yearMin := s.yearMin, yearMax := v }

/-! ## Drag and radius-slider handlers (`renderQueryCircles` / `setupControls`) -/

/-- Source `mapWidth = 1968 / 2.4`. -/
def mapWidth : ℚ := 1968 / (24 / 10)

/-- Source `mapHeight = 1580 / 2.4`. -/
def mapHeight : ℚ := 1580 / (24 / 10)

/-- The pair of module-level query circles. -/
structure CirclePair where
  circleA : Circle
  circleB : Circle
deriving DecidableEq, Repr

/-- The drag handler of circle A: clamp the event coordinates to the canvas
and store them as the new center. -/
def onDragA (ex ey : ℚ) (s : CirclePair) : CirclePair :=
  { s with circleA :=
      { x := max 0 (min mapWidth ex)
        y := max 0 (min mapHeight ey)
        radius := s.circleA.radius } }

/-- The drag handler of circle B. -/
def onDragB (ex ey : ℚ) (s : CirclePair) : CirclePair :=
  { s with circleB :=
      { x := max 0 (min mapWidth ex)
        y := max 0 (min mapHeight ey)
        radius := s.circleB.radius } }

/-- The radius-A slider handler: `circleA.radius = +this.value`. -/
def onRadiusAInput (v : ℚ) (s : CirclePair) : CirclePair :=
  { s with circleA := { s.circleA with radius := v } }

/-- The radius-B slider handler. -/
def onRadiusBInput (v : ℚ) (s : CirclePair) : CirclePair :=
  { s with circleB := { s.circleB with radius := v } }

/-! ## Concrete inputs used by the end-to-end scenarios -/

/-- Record 1 of the shared coordinate: year 1950, director X. -/
def exRec1 : Rec := ⟨str "M1", str "1950", str "X", str "N", str "1", str "2"⟩

/-- Record 2 of the shared coordinate: year 1980, director Y. -/
def exRec2 : Rec := ⟨str "M2", str "1980", str "Y", str "N", str "1", str "2"⟩

/-- Record 3 of the shared coordinate: year 2010, director X. -/
def exRec3 : Rec := ⟨str "M3", str "2010", str "X", str "N", str "1", str "2"⟩

/-- The distant record, outside both query regions. -/
def exRec4 : Rec := ⟨str "M4", str "1999", str "Z", str "N", str "9", str "9"⟩

/-- Criteria yearMin = 1960, yearMax = 2023, director = all, neighborhood = all. -/
def exCriteria : Criteria := ⟨1960, 2023, strAll, strAll⟩

/-- The shared location, projected to screen point (1, 0), inside both
example regions. -/
def exLoc1 : LocPoint := ⟨1, 0, [exRec1, exRec2, exRec3]⟩

/-- The distant location, projected to screen point (100, 100). -/
def exLoc2 : LocPoint := ⟨100, 100, [exRec4]⟩

/-- Example query region A, covering (1, 0). -/
def exCircleA : Circle := ⟨0, 0, 5⟩

/-- Example query region B, covering (1, 0). -/
def exCircleB : Circle := ⟨3, 0, 5⟩

/-- A location entry with a single member record. -/
def exSingleLoc : LocEntry := ⟨str "1,2", str "1", str "2", [exRec1]⟩

/-- Another location entry with a single member record. -/
def exSingleLoc2 : LocEntry := ⟨str "9,9", str "9", str "9", [exRec4]⟩

/-! ## Helper lemmas -/

/-- A filtered list has positive length iff some element satisfies the predicate. -/
lemma length_filter_pos_iff {α : Type} (p : α → Bool) (l : List α) :
    0 < (l.filter p).length ↔ ∃ a ∈ l, p a = true := by
  rw [List.length_pos, Ne, List.filter_eq_nil_iff]
  push_neg
  simp

/-- The imperative `visibleCount` accumulation equals the sum of the
per-location contributions. -/
lemma updateFiltersCount_foldl (cA cB : Circle) (crit : Criteria) :
    ∀ (locs : List LocPoint) (acc : ℕ),
      locs.foldl
        (fun acc loc =>
          if locationVisible cA cB crit loc then acc + (matchingMovies crit loc).length
          else acc) acc
      = acc + (locs.map
          (fun loc =>
            if locationVisible cA cB crit loc then (matchingMovies crit loc).length
            else 0)).sum
  | [], acc => by simp
  | loc :: locs, acc => by
    simp only [List.foldl_cons, List.map_cons, List.sum_cons]
    rw [updateFiltersCount_foldl cA cB crit locs]
    by_cases h : locationVisible cA cB crit loc = true
    · simp [h, Nat.add_assoc]
    · simp [h]

/-- Lemma on `find?` after one `insertRecord` step: the entry under the inserted
record's key gains that record (or is created), every other key is untouched. -/
lemma find?_insertRecord (es : List LocEntry) (d : Rec) (k : Str) :
    (insertRecord es d).find? (fun e => decide (e.key = k)) =
      if recKey d = k then
        some (pushEntry d k (es.find? (fun e => decide (e.key = k))))
      else es.find? (fun e => decide (e.key = k)) := by
  induction es with
  | nil =>
      by_cases hk : recKey d = k
      · subst hk; simp [insertRecord, List.find?, pushEntry]
      · simp [insertRecord, List.find?, hk]
  | cons e es ih =>
      by_cases he : e.key = recKey d
      · simp only [insertRecord, if_pos he]
        by_cases hk : recKey d = k
        · have hek : e.key = k := he.trans hk
          simp [List.find?_cons, hek, hk, pushEntry]
        · have hek : ¬(e.key = k) := fun hc => hk (he.symm.trans hc)
          simp [List.find?_cons, hek, hk]
      · simp only [insertRecord, if_neg he]
        by_cases pe : e.key = k
        · have hk : ¬(recKey d = k) := fun hc => he (pe.trans hc.symm)
          simp [List.find?_cons, pe, hk]
        · have h1 : (decide (e.key = k)) = false := decide_eq_false pe
          simp only [List.find?_cons, h1]
          rw [ih]

/-- Lemma on `find?` over the whole aggregation fold: the entry under `k` collects
exactly the records whose key is `k`, in input order, keyed and located by
the first such record. -/
lemma find?_locFold (rs : List Rec) : ∀ (acc : List LocEntry) (k : Str),
    (rs.foldl insertRecord acc).find? (fun e => decide (e.key = k)) =
      match acc.find? (fun e => decide (e.key = k)) with
      | some e => some { e with movies := e.movies ++ rs.filter (fun d => decide (recKey d = k)) }
      | none =>
        match rs.filter (fun d => decide (recKey d = k)) with
        | [] => none
        | d :: ds => some ⟨k, d.longitude, d.latitude, d :: ds⟩ := by
  induction rs with
  | nil =>
      intro acc k
      cases hf : acc.find? (fun e => decide (e.key = k)) <;> simp [hf]
  | cons r rs ih =>
      intro acc k
      rw [List.foldl_cons, ih (insertRecord acc r) k, find?_insertRecord]
      by_cases hk : recKey r = k
      · rw [if_pos hk, List.filter_cons, if_pos (by simpa using hk)]
        cases hf : acc.find? (fun e => decide (e.key = k)) <;> simp [pushEntry]
      · rw [if_neg hk, List.filter_cons, if_neg (by simpa using hk)]

/-- The keys after one `insertRecord` step: unchanged when the record's key
is present, extended by it otherwise. -/
lemma keys_insertRecord (es : List LocEntry) (d : Rec) :
    (insertRecord es d).map (fun e => e.key) =
      if recKey d ∈ es.map (fun e => e.key) then es.map (fun e => e.key)
      else es.map (fun e => e.key) ++ [recKey d] := by
  induction es with
  | nil => simp [insertRecord]
  | cons e es ih =>
      by_cases he : e.key = recKey d
      · simp [insertRecord, if_pos he, he.symm]
      · have : ¬(recKey d = e.key) := fun hc => he hc.symm
        simp only [insertRecord, if_neg he, List.map_cons, List.mem_cons, this, false_or]
        rw [ih]
        by_cases hm : recKey d ∈ es.map (fun e => e.key) <;> simp [hm]

/-- The aggregation fold keeps the key list duplicate-free. -/
lemma nodup_keys_locFold (rs : List Rec) : ∀ acc : List LocEntry,
    (acc.map (fun e => e.key)).Nodup →
    ((rs.foldl insertRecord acc).map (fun e => e.key)).Nodup := by
  induction rs with
  | nil => intro acc h; simpa using h
  | cons r rs ih =>
      intro acc h
      rw [List.foldl_cons]
      apply ih
      rw [keys_insertRecord]
      by_cases hm : recKey r ∈ acc.map (fun e => e.key)
      · simpa [hm] using h
      · simp only [if_neg hm]
        simp [List.nodup_append, h, hm]

/-- Every record stored in an entry carries that entry's key. -/
lemma movies_key_insertRecord (es : List LocEntry) (d : Rec)
    (h : ∀ e ∈ es, ∀ x ∈ e.movies, recKey x = e.key) :
    ∀ e ∈ insertRecord es d, ∀ x ∈ e.movies, recKey x = e.key := by
  induction es with
  | nil =>
      intro e he x hx
      simp only [insertRecord, List.mem_singleton] at he
      subst he
      simp only [List.mem_singleton] at hx
      subst hx
      rfl
  | cons e es ih =>
      by_cases hek : e.key = recKey d
      · simp only [insertRecord, if_pos hek]
        intro e' he' x hx
        rcases List.mem_cons.mp he' with he' | he'
        · subst he'
          simp only [List.mem_append, List.mem_singleton] at hx
          rcases hx with hx | hx
          · exact h e (List.mem_cons_self e es) x hx
          · subst hx; exact hek.symm
        · exact h e' (List.mem_cons_of_mem e he') x hx
      · simp only [insertRecord, if_neg hek]
        intro e' he' x hx
        rcases List.mem_cons.mp he' with he' | he'
        · subst he'; exact h e' (List.mem_cons_self e' es) x hx
        · exact ih (fun e he => h e (List.mem_cons_of_mem _ he)) e' he' x hx

/-- Fold version of `movies_key_insertRecord`. -/
lemma movies_key_locFold (rs : List Rec) : ∀ acc : List LocEntry,
    (∀ e ∈ acc, ∀ x ∈ e.movies, recKey x = e.key) →
    ∀ e ∈ rs.foldl insertRecord acc, ∀ x ∈ e.movies, recKey x = e.key := by
  induction rs with
  | nil => intro acc h; simpa using h
  | cons r rs ih =>
      intro acc h
      rw [List.foldl_cons]
      exact ih _ (movies_key_insertRecord acc r h)

/-- Every record stored anywhere in the aggregation satisfies any property
holding of the inserted records and the initial entries' records. -/
lemma movies_prop_insertRecord (S : Rec → Prop) (es : List LocEntry) (d : Rec)
    (hd : S d) (h : ∀ e ∈ es, ∀ x ∈ e.movies, S x) :
    ∀ e ∈ insertRecord es d, ∀ x ∈ e.movies, S x := by
  induction es with
  | nil =>
      intro e he x hx
      simp only [insertRecord, List.mem_singleton] at he
      subst he
      simp only [List.mem_singleton] at hx
      subst hx
      exact hd
  | cons e es ih =>
      by_cases hek : e.key = recKey d
      · simp only [insertRecord, if_pos hek]
        intro e' he' x hx
        rcases List.mem_cons.mp he' with he' | he'
        · subst he'
          simp only [List.mem_append, List.mem_singleton] at hx
          rcases hx with hx | hx
          · exact h e (List.mem_cons_self e es) x hx
          · subst hx; exact hd
        · exact h e' (List.mem_cons_of_mem e he') x hx
      · simp only [insertRecord, if_neg hek]
        intro e' he' x hx
        rcases List.mem_cons.mp he' with he' | he'
        · subst he'; exact h e' (List.mem_cons_self e' es) x hx
        · exact ih (fun e he => h e (List.mem_cons_of_mem _ he)) e' he' x hx

/-- Fold version of `movies_prop_insertRecord`. -/
lemma movies_prop_locFold (S : Rec → Prop) (rs : List Rec) : ∀ acc : List LocEntry,
    (∀ d ∈ rs, S d) → (∀ e ∈ acc, ∀ x ∈ e.movies, S x) →
    ∀ e ∈ rs.foldl insertRecord acc, ∀ x ∈ e.movies, S x := by
  induction rs with
  | nil => intro acc _ h; simpa using h
  | cons r rs ih =>
      intro acc hrs h
      rw [List.foldl_cons]
      exact ih _ (fun d hd => hrs d (List.mem_cons_of_mem _ hd))
        (movies_prop_insertRecord S acc r (hrs r (List.mem_cons_self r rs)) h)

/-- With duplicate-free keys, an entry is determined by its key. -/
lemma entry_eq_of_key_eq : ∀ {es : List LocEntry},
    (es.map (fun e => e.key)).Nodup →
    ∀ {a b : LocEntry}, a ∈ es → b ∈ es → a.key = b.key → a = b := by
  intro es
  induction es with
  | nil => intro _ a b ha; simp at ha
  | cons e es ih =>
      intro h a b ha hb hk
      rw [List.map_cons, List.nodup_cons] at h
      rcases List.mem_cons.mp ha with ha | ha <;> rcases List.mem_cons.mp hb with hb | hb
      · rw [ha, hb]
      · exfalso
        apply h.1
        have hmem : b.key ∈ es.map (fun e => e.key) := List.mem_map_of_mem _ hb
        rwa [← hk, ha] at hmem
      · exfalso
        apply h.1
        have hmem : a.key ∈ es.map (fun e => e.key) := List.mem_map_of_mem _ ha
        rwa [hk, hb] at hmem
      · exact ih h.2 ha hb hk

/-- The degenerate sqrt scale with domain endpoints both 1 maps every input
to the midpoint of the range. -/
lemma d3ScaleSqrt_one_one (r0 r1 x : ℝ) : d3ScaleSqrt 1 1 r0 r1 x = (r0 + r1) / 2 := by
  simp only [d3ScaleSqrt, Real.sqrt_one, lt_irrefl, if_false, d3Normalize, sub_self,
    d3InterpolateNumber, if_true]
  ring

/-- When every location holds exactly one record, `d3.max` of the member
counts is 1. -/
lemma maxMoviesD3_all_one : ∀ (locs : List LocEntry) (acc : ℕ), locs ≠ [] →
    (∀ l ∈ locs, l.movies.length = 1) →
    locs.foldl (fun m e => Nat.max m e.movies.length) acc = Nat.max acc 1 := by
  intro locs
  induction locs with
  | nil => intro acc h; exact absurd rfl h
  | cons e es ih =>
      intro acc _ hall
      rw [List.foldl_cons, hall e (List.mem_cons_self e es)]
      cases hes : es with
      | nil => simp
      | cons e' es' =>
          rw [← hes, ih (Nat.max acc 1) (by rw [hes]; simp)
            (fun l hl => hall l (List.mem_cons_of_mem _ hl))]
          simp only [Nat.max_def]
          split_ifs <;> omega

/-- Membership after a JavaScript-`Set`-style add. -/
lemma mem_addUnique (acc : List Str) (w v : Str) :
    v ∈ addUnique acc w ↔ v ∈ acc ∨ v = w := by
  by_cases h : w ∈ acc
  · simp only [addUnique, if_pos h]
    constructor
    · exact Or.inl
    · rintro (hv | rfl)
      · exact hv
      · exact h
  · simp [addUnique, if_neg h]

/-- Membership in the `getUniqueValues` accumulation fold. -/
lemma mem_uniqueFold (f : Rec → Str) : ∀ (data : List Rec) (acc : List Str) (v : Str),
    v ∈ data.foldl
        (fun acc d =>
          let value := f d
          if value ≠ [] ∧ trimStr value ≠ [] then addUnique acc (trimStr value) else acc)
        acc
      ↔ v ∈ acc ∨ ∃ d ∈ data, f d ≠ [] ∧ trimStr (f d) ≠ [] ∧ trimStr (f d) = v := by
  intro data
  induction data with
  | nil => intro acc v; simp
  | cons r data ih =>
      intro acc v
      rw [List.foldl_cons]
      by_cases hr : f r ≠ [] ∧ trimStr (f r) ≠ []
      · simp only [if_pos hr]
        rw [ih, mem_addUnique]
        constructor
        · rintro (⟨hv | rfl⟩ | ⟨d, hd, h1, h2, h3⟩)
          · exact Or.inl hv
          · exact Or.inr ⟨r, List.mem_cons_self r data, hr.1, hr.2, rfl⟩
          · exact Or.inr ⟨d, List.mem_cons_of_mem _ hd, h1, h2, h3⟩
        · rintro (hv | ⟨d, hd, h1, h2, h3⟩)
          · exact Or.inl (Or.inl hv)
          · rcases List.mem_cons.mp hd with rfl | hd
            · exact Or.inl (Or.inr h3.symm)
            · exact Or.inr ⟨d, hd, h1, h2, h3⟩
      · simp only [if_neg hr]
        rw [ih]
        constructor
        · rintro (hv | ⟨d, hd, h1, h2, h3⟩)
          · exact Or.inl hv
          · exact Or.inr ⟨d, List.mem_cons_of_mem _ hd, h1, h2, h3⟩
        · rintro (hv | ⟨d, hd, h1, h2, h3⟩)
          · exact Or.inl hv
          · rcases List.mem_cons.mp hd with rfl | hd
            · exact absurd ⟨h1, h2⟩ hr
            · exact Or.inr ⟨d, hd, h1, h2, h3⟩

/-- Membership in the dropdown options. -/
lemma mem_getUniqueValues (data : List Rec) (f : Rec → Str) (v : Str) :
    v ∈ getUniqueValues data f ↔
      ∃ d ∈ data, f d ≠ [] ∧ trimStr (f d) ≠ [] ∧ trimStr (f d) = v := by
  rw [getUniqueValues, List.mem_mergeSort, mem_uniqueFold]
  simp

/-- A non-empty `dropWhile` result starts past the dropped prefix: it
contains an element failing the predicate. -/
lemma exists_false_of_dropWhile_ne_nil {α : Type} (p : α → Bool) :
    ∀ l : List α, l.dropWhile p ≠ [] → ∃ c ∈ l.dropWhile p, p c = false := by
  intro l
  induction l with
  | nil => intro h; exact absurd rfl h
  | cons a l ih =>
      intro h
      by_cases ha : p a = true
      · rw [List.dropWhile_cons_of_pos ha] at h ⊢
        exact ih h
      · rw [List.dropWhile_cons_of_neg ha] at h ⊢
        exact ⟨a, List.mem_cons_self a _, Bool.eq_false_iff.mpr ha⟩

/-- A string whose trim is non-empty contains a non-whitespace character
inside its trim. -/
lemma exists_not_ws_of_trim_ne_nil (s : Str) (h : trimStr s ≠ []) :
    ∃ c ∈ trimStr s, isWs c = false := by
  rw [trimStr] at h ⊢
  have h2 : ((s.dropWhile isWs).reverse.dropWhile isWs) ≠ [] := by
    intro hc
    rw [hc] at h
    exact h rfl
  obtain ⟨c, hc, hcw⟩ := exists_false_of_dropWhile_ne_nil isWs _ h2
  exact ⟨c, List.mem_reverse.mpr hc, hcw⟩

/-- A string that trims to empty is entirely whitespace. -/
lemma all_ws_of_trim_eq_nil (s : Str) (h : trimStr s = []) :
    ∀ c ∈ s, isWs c = true := by
  rw [trimStr, List.reverse_eq_nil_iff, List.dropWhile_eq_nil_iff] at h
  have hdrop : ∀ c ∈ s.dropWhile isWs, isWs c = true := by
    intro c hc
    exact h c (List.mem_reverse.mpr hc)
  intro c hc
  rw [← List.takeWhile_append_dropWhile (p := isWs) (l := s), List.mem_append] at hc
  rcases hc with hc | hc
  · exact List.mem_takeWhile_imp hc
  · exact hdrop c hc

/-! ## Theorems -/

/-- C1: a location is visible iff its cached screen point is in the
intersection of both query regions AND at least one member record matches the
year/director/neighborhood criteria; the per-record variant requires the
intersection test AND all three conditions on the single record; the reported
visible count totals the matching member records over visible locations.
End-to-end: with three records (years 1950/1980/2010, directors X/Y/X) at a
shared in-region point, one distant record, yearMin = 1960 and
director = all, the shared location is visible with matching count 2, the
distant one is not, and the reported count is 2. -/
theorem filter_evaluator_visibility :
    (∀ (cA cB : Circle) (crit : Criteria) (loc : LocPoint),
        locationVisible cA cB crit loc = true ↔
          (isInIntersection cA cB loc.px loc.py = true
            ∧ ∃ m ∈ loc.movies, movieMatches crit m = true))
    ∧ (∀ (pixelsPerKm : ℚ) (cA cB : Circle) (crit : Criteria) (px py : ℚ) (d : Rec),
        recordVisible pixelsPerKm cA cB crit px py d
          = (isInIntersectionKm pixelsPerKm cA cB px py
              && (inYearRange d.releaseYear crit.yearMin crit.yearMax
                  && (directorMatch crit.director d && neighborhoodMatch crit.neighborhood d))))
    ∧ (∀ (cA cB : Circle) (crit : Criteria) (locs : List LocPoint),
        updateFiltersCount cA cB crit locs
          = (locs.map
              (fun loc =>
                if locationVisible cA cB crit loc then (matchingMovies crit loc).length
                else 0)).sum)
    ∧ (locationVisible exCircleA exCircleB exCriteria exLoc1 = true
      ∧ (matchingMovies exCriteria exLoc1).length = 2
      ∧ locationVisible exCircleA exCircleB exCriteria exLoc2 = false
      ∧ updateFiltersCount exCircleA exCircleB exCriteria [exLoc1, exLoc2] = 2) := by
  have hv1 : locationVisible exCircleA exCircleB exCriteria exLoc1 = true := by
    norm_num [locationVisible, isInIntersection, isInCircle, exLoc1, exCircleA, exCircleB]
    decide
  have hv2 : locationVisible exCircleA exCircleB exCriteria exLoc2 = false := by
    norm_num [locationVisible, isInIntersection, isInCircle, exLoc2, exCircleA, exCircleB]
  refine ⟨fun cA cB crit loc => ?_, fun ppk cA cB crit px py d => ?_,
          fun cA cB crit locs => ?_, hv1, by decide, hv2, ?_⟩
  · simp only [locationVisible, Bool.and_eq_true, decide_eq_true_eq, matchingMovies]
    rw [length_filter_pos_iff]
  · simp [recordVisible, Bool.and_assoc]
  · rw [updateFiltersCount, updateFiltersCount_foldl cA cB crit locs 0, Nat.zero_add]
  · rw [updateFiltersCount, List.foldl_cons, List.foldl_cons, List.foldl_nil, hv1, hv2]
    decide

/-- C8: a record whose Release Year does not parse as a number (or is
absent, reading back as the empty string) satisfies the year condition for
every year range, so it is never rejected on account of its year: the
record's overall match reduces to the two categorical conditions. -/
theorem malformed_year_matches_any (m : Rec)
    (h : jsToNum m.releaseYear = JSNum.nan ∨ m.releaseYear = []) :
    (∀ yearMin yearMax : ℚ, inYearRange m.releaseYear yearMin yearMax = true)
    ∧ ∀ crit : Criteria,
        movieMatches crit m
          = (directorMatch crit.director m && neighborhoodMatch crit.neighborhood m) := by
  have hy : jsFalsy (jsToNum m.releaseYear) = true := by
    rcases h with h | h
    · rw [h]; rfl
    · rw [h]; rfl
  constructor
  · intro yearMin yearMax
    simp [inYearRange, hy]
  · intro crit
    simp [movieMatches, inYearRange, hy]

/-- Witness for C8: the concrete non-numeric year `"n/a"` passes the year
condition for the range 1960–2023. -/
theorem malformed_year_matches_any_witness :
    (jsToNum (str "n/a") = JSNum.nan ∨ str "n/a" = ([] : Str))
    ∧ inYearRange (str "n/a") 1960 2023 = true := by
  have h : jsToNum (str "n/a") = JSNum.nan ∨ str "n/a" = ([] : Str) := Or.inl (by decide)
  exact ⟨h,
    (malformed_year_matches_any ⟨str "T", str "n/a", str "D", str "N", str "1", str "2"⟩ h).1
      1960 2023⟩

/-- C4: the location aggregator groups the input records by their raw
coordinate-pair key into exactly one location each: the key list is
duplicate-free, the entry found under a key holds exactly the input records
with that key (so its member count is their count, and an absent key means no
such record), and every input record appears in exactly one entry's member
list. -/
theorem aggregator_groups_by_key (rs : List Rec) :
    ((locationMapOf rs).map (fun e => e.key)).Nodup
    ∧ (∀ (k : Str) (e : LocEntry),
        (locationMapOf rs).find? (fun e => decide (e.key = k)) = some e →
        e.movies = rs.filter (fun d => decide (recKey d = k))
        ∧ e.movies.length = rs.countP (fun d => decide (recKey d = k)))
    ∧ (∀ k : Str,
        (locationMapOf rs).find? (fun e => decide (e.key = k)) = none →
        rs.filter (fun d => decide (recKey d = k)) = [])
    ∧ (∀ d ∈ rs, ∃ e ∈ locationMapOf rs, d ∈ e.movies
        ∧ ∀ e' ∈ locationMapOf rs, d ∈ e'.movies → e' = e) := by
  have hchar : ∀ k : Str,
      (locationMapOf rs).find? (fun e => decide (e.key = k)) =
        match rs.filter (fun d => decide (recKey d = k)) with
        | [] => none
        | d :: ds => some ⟨k, d.longitude, d.latitude, d :: ds⟩ := by
    intro k
    rw [locationMapOf, find?_locFold rs [] k]
    simp [List.find?]
  have hnodup : ((locationMapOf rs).map (fun e => e.key)).Nodup :=
    nodup_keys_locFold rs [] (by simp)
  have hkeys : ∀ e ∈ locationMapOf rs, ∀ x ∈ e.movies, recKey x = e.key :=
    movies_key_locFold rs [] (by simp)
  have hsome : ∀ (k : Str) (e : LocEntry),
      (locationMapOf rs).find? (fun e => decide (e.key = k)) = some e →
      e.movies = rs.filter (fun d => decide (recKey d = k)) := by
    intro k e he
    rw [hchar k] at he
    cases hf : rs.filter (fun d => decide (recKey d = k)) with
    | nil => rw [hf] at he; exact absurd he (by simp)
    | cons d ds =>
        rw [hf] at he
        have : (⟨k, d.longitude, d.latitude, d :: ds⟩ : LocEntry) = e := by
          exact Option.some.inj he
        rw [← this]
  refine ⟨hnodup, fun k e he => ⟨hsome k e he, ?_⟩, fun k hn => ?_, fun d hd => ?_⟩
  · rw [hsome k e he, List.countP_eq_length_filter]
  · rw [hchar k] at hn
    cases hf : rs.filter (fun d => decide (recKey d = k)) with
    | nil => rfl
    | cons d ds => rw [hf] at hn; exact absurd hn (by simp)
  · have hmem : d ∈ rs.filter (fun x => decide (recKey x = recKey d)) :=
      List.mem_filter.mpr ⟨hd, by simp⟩
    cases hf : rs.filter (fun x => decide (recKey x = recKey d)) with
    | nil => rw [hf] at hmem; exact absurd hmem (by simp)
    | cons r ds =>
        have hfind : (locationMapOf rs).find? (fun e => decide (e.key = recKey d)) =
            some ⟨recKey d, r.longitude, r.latitude, r :: ds⟩ := by
          rw [hchar (recKey d), hf]
        refine ⟨⟨recKey d, r.longitude, r.latitude, r :: ds⟩,
          List.mem_of_find?_eq_some hfind, ?_, ?_⟩
        · have := hsome (recKey d) _ hfind
          simp only at this
          rw [hf] at hmem
          simpa [this] using hmem
        · intro e' he' hde'
          have hkey' : e'.key = recKey d := (hkeys e' he' d hde').symm
          have hkey : (⟨recKey d, r.longitude, r.latitude, r :: ds⟩ : LocEntry).key = recKey d :=
            rfl
          exact entry_eq_of_key_eq hnodup he' (List.mem_of_find?_eq_some hfind)
            (hkey'.trans hkey.symm)

/-- Witness for C4: for the concrete input `[exRec1, exRec4, exRec2]`, where
the first and third record share the coordinate key "1,2", the found entry
under that key holds exactly those two records, and `exRec1` lies in exactly
one entry. -/
theorem aggregator_groups_by_key_witness :
    ((locationMapOf [exRec1, exRec4, exRec2]).find?
        (fun e => decide (e.key = str "1,2"))
      = some ⟨str "1,2", str "1", str "2", [exRec1, exRec2]⟩)
    ∧ (⟨str "1,2", str "1", str "2", [exRec1, exRec2]⟩ : LocEntry).movies
        = [exRec1, exRec4, exRec2].filter (fun d => decide (recKey d = str "1,2"))
    ∧ ∃ e ∈ locationMapOf [exRec1, exRec4, exRec2], exRec1 ∈ e.movies
        ∧ ∀ e' ∈ locationMapOf [exRec1, exRec4, exRec2], exRec1 ∈ e'.movies → e' = e := by
  have hfind : (locationMapOf [exRec1, exRec4, exRec2]).find?
      (fun e => decide (e.key = str "1,2"))
      = some ⟨str "1,2", str "1", str "2", [exRec1, exRec2]⟩ := by decide
  exact ⟨hfind,
    ((aggregator_groups_by_key [exRec1, exRec4, exRec2]).2.1 (str "1,2") _ hfind).1,
    (aggregator_groups_by_key [exRec1, exRec4, exRec2]).2.2.2 exRec1 (by decide)⟩

/-- C5: the load-time filter is exhaustive and exact: a record is kept iff it
is an input record whose longitude and latitude both coerce to finite
numbers, and consequently every record reaching the aggregation carries
finite coordinates. -/
theorem load_filter_exhaustive :
    (∀ (data : List Rec) (d : Rec),
        d ∈ loadFilter data ↔
          d ∈ data ∧ numberIsFinite (jsToNum d.longitude) = true
            ∧ numberIsFinite (jsToNum d.latitude) = true)
    ∧ (∀ data : List Rec, ∀ e ∈ locationMapOf (loadFilter data), ∀ d ∈ e.movies,
        numberIsFinite (jsToNum d.longitude) = true
          ∧ numberIsFinite (jsToNum d.latitude) = true) := by
  have hmem : ∀ (data : List Rec) (d : Rec),
      d ∈ loadFilter data ↔
        d ∈ data ∧ numberIsFinite (jsToNum d.longitude) = true
          ∧ numberIsFinite (jsToNum d.latitude) = true := by
    intro data d
    simp [loadFilter, List.mem_filter]
  refine ⟨hmem, fun data => ?_⟩
  exact movies_prop_locFold _ (loadFilter data) []
    (fun d hd => ((hmem data d).mp hd).2) (by simp)

/-- Witness for C5: a concrete input with one malformed-longitude record;
the record that survives the load filter has finite coordinates, as does the
record stored in the aggregation built from the filtered input. -/
theorem load_filter_exhaustive_witness :
    (exRec1 ∈ loadFilter [exRec1, ⟨str "B", str "1999", str "D", str "N", str "x", str "2"⟩]
      ↔ exRec1 ∈ [exRec1, ⟨str "B", str "1999", str "D", str "N", str "x", str "2"⟩]
        ∧ numberIsFinite (jsToNum exRec1.longitude) = true
        ∧ numberIsFinite (jsToNum exRec1.latitude) = true)
    ∧ (numberIsFinite (jsToNum exRec1.longitude) = true
        ∧ numberIsFinite (jsToNum exRec1.latitude) = true) := by
  refine ⟨load_filter_exhaustive.1 _ exRec1, ?_⟩
  exact load_filter_exhaustive.2
    [exRec1, ⟨str "B", str "1999", str "D", str "N", str "x", str "2"⟩]
    ⟨str "1,2", str "1", str "2", [exRec1]⟩ (by decide) exRec1 (by decide)

/-- C6 counterexample: with a single location holding a single record
(domain `[1, 1]`), the d3 sqrt scale's degenerate-domain rule maps the
member count to the MIDPOINT 6.5 of the range `[3, 10]`, not to the low end
3 as claimed. -/
theorem radius_scale_degenerate_counterexample :
    renderRadius [exSingleLoc] exSingleLoc = 13 / 2 ∧ ((13 : ℝ) / 2 ≠ 3) := by
  have h1 : maxMoviesD3 [exSingleLoc] = 1 := by decide
  have h2 : exSingleLoc.movies.length = 1 := by decide
  constructor
  · rw [renderRadius, h1, h2, Nat.cast_one, d3ScaleSqrt_one_one]
    norm_num
  · norm_num

/-- C6 amended: the display radius of every location equals the d3 sqrt
scale with domain `[1, maxMemberCount]` and range `[3, 10]` applied to its
member count; when every location has exactly one record the computation
does not divide by zero: d3 guards the degenerate domain and the scale
collapses to the constant 6.5, the midpoint of the range (not its low
end). -/
theorem radius_scale_amended :
    ∀ (locs : List LocEntry) (e : LocEntry), e ∈ locs →
      renderRadius locs e = d3ScaleSqrt 1 (maxMoviesD3 locs) 3 10 e.movies.length
      ∧ ((∀ l ∈ locs, l.movies.length = 1) → renderRadius locs e = 13 / 2) := by
  intro locs e he
  refine ⟨rfl, fun hall => ?_⟩
  have hne : locs ≠ [] := List.ne_nil_of_mem he
  have h1 : maxMoviesD3 locs = 1 := by
    rw [maxMoviesD3, maxMoviesD3_all_one locs 0 hne hall]
    rfl
  rw [renderRadius, h1, hall e he, Nat.cast_one, d3ScaleSqrt_one_one]
  norm_num

/-- Witness for C6: two concrete single-record locations get the constant
radius 6.5. -/
theorem radius_scale_amended_witness :
    exSingleLoc2 ∈ [exSingleLoc, exSingleLoc2]
    ∧ renderRadius [exSingleLoc, exSingleLoc2] exSingleLoc2 = 13 / 2 := by
  have hmem : exSingleLoc2 ∈ [exSingleLoc, exSingleLoc2] := by decide
  exact ⟨hmem,
    (radius_scale_amended [exSingleLoc, exSingleLoc2] exSingleLoc2 hmem).2 (by decide)⟩

/-- C9: a dropdown option is exactly the trim of some record's truthy,
non-blank field value; hence every option is non-empty and contains a
non-whitespace character (blank raw values are excluded from the dropdown
population), and a record whose director (resp. neighborhood) field is blank
(empty or whitespace-only) never matches a specific, non-`"all"` selected
option in the categorical comparison. -/
theorem blank_categorical_never_matches :
    (∀ (data : List Rec) (f : Rec → Str) (v : Str),
        v ∈ getUniqueValues data f ↔
          ∃ d ∈ data, f d ≠ [] ∧ trimStr (f d) ≠ [] ∧ trimStr (f d) = v)
    ∧ (∀ (data : List Rec) (f : Rec → Str) (v : Str),
        v ∈ getUniqueValues data f → v ≠ [] ∧ ∃ c ∈ v, isWs c = false)
    ∧ (∀ (data : List Rec) (f : Rec → Str) (sel : Str) (m : Rec),
        sel ∈ getUniqueValues data f → sel ≠ strAll →
        (trimStr m.director = [] → directorMatch sel m = false)
        ∧ (trimStr m.neighborhood = [] → neighborhoodMatch sel m = false)) := by
  have hopt : ∀ (data : List Rec) (f : Rec → Str) (v : Str),
      v ∈ getUniqueValues data f → v ≠ [] ∧ ∃ c ∈ v, isWs c = false := by
    intro data f v hv
    obtain ⟨d, _, _, htrim, heq⟩ := (mem_getUniqueValues data f v).mp hv
    rw [← heq]
    exact ⟨htrim, exists_not_ws_of_trim_ne_nil _ htrim⟩
  have hne : ∀ (data : List Rec) (f : Rec → Str) (sel : Str) (r : Str),
      sel ∈ getUniqueValues data f → trimStr r = [] → ¬(r = sel) := by
    intro data f sel r hsel htrim heq
    obtain ⟨c, hc, hcw⟩ := (hopt data f sel hsel).2
    have : isWs c = true := all_ws_of_trim_eq_nil r htrim c (heq ▸ hc)
    rw [this] at hcw
    exact Bool.noConfusion hcw
  refine ⟨mem_getUniqueValues, hopt, fun data f sel m hsel hall => ⟨fun hd => ?_, fun hn => ?_⟩⟩
  · rw [directorMatch, decide_eq_false hall, decide_eq_false (hne data f sel _ hsel hd)]
    rfl
  · rw [neighborhoodMatch, decide_eq_false hall, decide_eq_false (hne data f sel _ hsel hn)]
    rfl

/-- Witness for C9: the option "Coppola" (trimmed from a raw value with
surrounding spaces) is in the dropdown, and a record with whitespace-only
director does not match it. -/
theorem blank_categorical_never_matches_witness :
    (str "Coppola" ∈ getUniqueValues
        [⟨str "T", str "1980", str " Coppola ", str "N", str "1", str "2"⟩] (fun d => d.director))
    ∧ str "Coppola" ≠ strAll
    ∧ trimStr (str "  ") = []
    ∧ directorMatch (str "Coppola")
        ⟨str "T2", str "1990", str "  ", str "N", str "1", str "2"⟩ = false := by
  have hsel : str "Coppola" ∈ getUniqueValues
      [⟨str "T", str "1980", str " Coppola ", str "N", str "1", str "2"⟩]
      (fun d => d.director) :=
    (blank_categorical_never_matches.1 _ _ _).mpr
      ⟨⟨str "T", str "1980", str " Coppola ", str "N", str "1", str "2"⟩,
        List.mem_singleton.mpr rfl, by decide, by decide, by decide⟩
  exact ⟨hsel, by decide, by decide,
    (blank_categorical_never_matches.2.2 _ _ _
      ⟨str "T2", str "1990", str "  ", str "N", str "1", str "2"⟩ hsel (by decide)).1
      (by decide)⟩

/-- C2: for every point and query region, `contains` is true iff the squared
Euclidean distance to the center is at most the squared radius-in-pixels (the
km-denominated variant first converts the radius through `kmToPixels`), and
the boundary is inclusive: the concrete point (3, 4) at squared distance
exactly 25 from the center of a circle of radius 5 is classified contained. -/
theorem contains_iff_sq_dist_le :
    (∀ (px py : ℚ) (c : Circle),
        isInCircle px py c = true ↔
          (px - c.x) * (px - c.x) + (py - c.y) * (py - c.y) ≤ c.radius * c.radius)
    ∧ (∀ (pixelsPerKm px py : ℚ) (c : Circle),
        isInCircleKm pixelsPerKm px py c = true ↔
          (px - c.x) * (px - c.x) + (py - c.y) * (py - c.y) ≤
            kmToPixels c.radius pixelsPerKm * kmToPixels c.radius pixelsPerKm)
    ∧ isInCircle 3 4 ⟨0, 0, 5⟩ = true
    ∧ ((3 : ℚ) - 0) * (3 - 0) + (4 - 0) * (4 - 0) = 5 * 5 := by
  refine ⟨fun px py c => by simp [isInCircle],
          fun ppk px py c => by simp [isInCircleKm],
          by norm_num [isInCircle], by norm_num⟩

/-- C3: `bothContain` is the conjunction of the two individual `contains`
tests (in both source variants), it is unchanged under swapping the two
regions, and when the two regions share no point the filter evaluator marks
every location not visible (an empty visible set, not an error). -/
theorem both_contain_and_comm :
    (∀ (cA cB : Circle) (px py : ℚ),
        isInIntersection cA cB px py = (isInCircle px py cA && isInCircle px py cB))
    ∧ (∀ (pixelsPerKm : ℚ) (cA cB : Circle) (px py : ℚ),
        isInIntersectionKm pixelsPerKm cA cB px py
          = (isInCircleKm pixelsPerKm px py cA && isInCircleKm pixelsPerKm px py cB))
    ∧ (∀ (cA cB : Circle) (px py : ℚ),
        isInIntersection cA cB px py = isInIntersection cB cA px py)
    ∧ (∀ (pixelsPerKm : ℚ) (cA cB : Circle) (px py : ℚ),
        isInIntersectionKm pixelsPerKm cA cB px py = isInIntersectionKm pixelsPerKm cB cA px py)
    ∧ (∀ cA cB : Circle,
        (∀ px py : ℚ, ¬(isInCircle px py cA = true ∧ isInCircle px py cB = true)) →
        ∀ (crit : Criteria) (loc : LocPoint), locationVisible cA cB crit loc = false) := by
  refine ⟨fun cA cB px py => rfl,
          fun ppk cA cB px py => rfl,
          fun cA cB px py => Bool.and_comm _ _,
          fun ppk cA cB px py => Bool.and_comm _ _,
          fun cA cB h crit loc => ?_⟩
  have hint : isInIntersection cA cB loc.px loc.py = false := by
    have := h loc.px loc.py
    cases hA : isInCircle loc.px loc.py cA <;> cases hB : isInCircle loc.px loc.py cB <;>
      simp_all [isInIntersection]
  simp [locationVisible, hint]

/-- Witness for C3: two concrete disjoint regions yield a not-visible
verdict for a concrete location. -/
theorem both_contain_and_comm_witness :
    (∀ px py : ℚ, ¬(isInCircle px py ⟨0, 0, 1⟩ = true ∧ isInCircle px py ⟨10, 0, 1⟩ = true))
    ∧ locationVisible ⟨0, 0, 1⟩ ⟨10, 0, 1⟩ exCriteria exLoc1 = false := by
  have hdisj : ∀ px py : ℚ,
      ¬(isInCircle px py ⟨0, 0, 1⟩ = true ∧ isInCircle px py ⟨10, 0, 1⟩ = true) := by
    rintro px py ⟨h1, h2⟩
    simp only [isInCircle, decide_eq_true_eq] at h1 h2
    nlinarith [sq_nonneg (px - 5), sq_nonneg py]
  exact ⟨hdisj, both_contain_and_comm.2.2.2.2 _ _ hdisj exCriteria exLoc1⟩

/-- C7 counterexample: moving the `yearMin` slider from 1950 to 1980 past a
`yearMax` of 1960 leaves the moved bound at its new value 1980 and drags the
NOT-moved `yearMax` bound up to 1980; the bound last changed is not the one
adjusted. -/
theorem year_clamp_counterexample :
    (onYearMinInput 1980 ⟨1950, 1960⟩).yearMin = 1980
    ∧ (onYearMinInput 1980 ⟨1950, 1960⟩).yearMax = 1980
    ∧ ((1980 : ℚ) ≠ 1960) := by
  refine ⟨?_, ?_, by norm_num⟩ <;> norm_num [onYearMinInput]

/-- C7 amended: after every year-slider input event `yearMin ≤ yearMax`
holds, and it is enforced by clamping the OPPOSITE bound: the bound the user
just moved keeps its new value, and the other bound is dragged to it when the
invariant would otherwise break. -/
theorem year_slider_invariant :
    ∀ (v : ℚ) (s : YearSliders),
      ((onYearMinInput v s).yearMin ≤ (onYearMinInput v s).yearMax
        ∧ (onYearMinInput v s).yearMin = v
        ∧ (onYearMinInput v s).yearMax = max s.yearMax v)
      ∧ ((onYearMaxInput v s).yearMin ≤ (onYearMaxInput v s).yearMax
        ∧ (onYearMaxInput v s).yearMax = v
        ∧ (onYearMaxInput v s).yearMin = min s.yearMin v) := by
  intro v s
  constructor
  · unfold onYearMinInput
    split_ifs with h
    · exact ⟨le_refl v, rfl, (max_eq_right (le_of_lt h)).symm⟩
    · exact ⟨not_lt.mp h, rfl, (max_eq_left (not_lt.mp h)).symm⟩
  · unfold onYearMaxInput
    split_ifs with h
    · exact ⟨le_refl v, rfl, (min_eq_right (le_of_lt h)).symm⟩
    · exact ⟨not_lt.mp h, rfl, (min_eq_left (not_lt.mp h)).symm⟩

/-- C10: a drag event on a query region mutates only that region's center,
each coordinate clamped to the canvas; the dragged region's radius and the
whole other region are unchanged.  A radius-slider input mutates only the
corresponding region's radius, leaving both centers and the other region
unchanged. -/
theorem drag_and_radius_frame :
    ∀ (ex ey v : ℚ) (s : CirclePair),
      ((onDragA ex ey s).circleA.x = max 0 (min mapWidth ex)
        ∧ (onDragA ex ey s).circleA.y = max 0 (min mapHeight ey)
        ∧ 0 ≤ (onDragA ex ey s).circleA.x ∧ (onDragA ex ey s).circleA.x ≤ mapWidth
        ∧ 0 ≤ (onDragA ex ey s).circleA.y ∧ (onDragA ex ey s).circleA.y ≤ mapHeight
        ∧ (onDragA ex ey s).circleA.radius = s.circleA.radius
        ∧ (onDragA ex ey s).circleB = s.circleB)
      ∧ ((onDragB ex ey s).circleB.x = max 0 (min mapWidth ex)
        ∧ (onDragB ex ey s).circleB.y = max 0 (min mapHeight ey)
        ∧ 0 ≤ (onDragB ex ey s).circleB.x ∧ (onDragB ex ey s).circleB.x ≤ mapWidth
        ∧ 0 ≤ (onDragB ex ey s).circleB.y ∧ (onDragB ex ey s).circleB.y ≤ mapHeight
        ∧ (onDragB ex ey s).circleB.radius = s.circleB.radius
        ∧ (onDragB ex ey s).circleA = s.circleA)
      ∧ ((onRadiusAInput v s).circleA.radius = v
        ∧ (onRadiusAInput v s).circleA.x = s.circleA.x
        ∧ (onRadiusAInput v s).circleA.y = s.circleA.y
        ∧ (onRadiusAInput v s).circleB = s.circleB)
      ∧ ((onRadiusBInput v s).circleB.radius = v
        ∧ (onRadiusBInput v s).circleB.x = s.circleB.x
        ∧ (onRadiusBInput v s).circleB.y = s.circleB.y
        ∧ (onRadiusBInput v s).circleA = s.circleA) := by
  intro ex ey v s
  have hw : (0 : ℚ) ≤ mapWidth := by norm_num [mapWidth]
  have hh : (0 : ℚ) ≤ mapHeight := by norm_num [mapHeight]
  refine ⟨⟨rfl, rfl, le_max_left 0 _, max_le hw (min_le_left _ _),
           le_max_left 0 _, max_le hh (min_le_left _ _), rfl, rfl⟩,
          ⟨rfl, rfl, le_max_left 0 _, max_le hw (min_le_left _ _),
           le_max_left 0 _, max_le hh (min_le_left _ _), rfl, rfl⟩,
          ⟨rfl, rfl, rfl, rfl⟩, ⟨rfl, rfl, rfl, rfl⟩⟩

end SFFilm
